import Mathlib

/-!
Verification development for the `teneto` time-varying-connectivity derivation
engine (`src/teneto/derive/derive.py`).

The numerical values produced by numpy are embedded as `NpVal`, a four-way sum
of a finite rational, the two IEEE infinities and NaN; the arithmetic used by
`derive.py` (negation, subtraction, division, nan-aware min/max reductions) is
translated below with IEEE-754 semantics.  Data matrices carry plain rationals
(the caller's finite input data); weight matrices and connectivity tensors
carry `NpVal` entries, since the spatial-distance normalisation and the
post-processing step can produce NaN and infinities.

External collaborators of `derive.py` that are not part of this repository
(`statsmodels`' weighted correlation, `scipy.stats` densities) and repository
code that is not under `src/` (`teneto.utils.getDistanceFunction`,
`teneto.derive.postpro_pipeline`) enter the embedding as explicit function
parameters or as definitions whose doc comment starts `Modelled from the
spec:`.  Everything else is translated directly from the source.
-/

namespace Teneto

/-- IEEE-754-style value: a finite rational, plus infinity, minus infinity,
or NaN.  Models the double-precision values flowing through `derive.py`
(with the finite reals restricted to the rationals). -/
inductive NpVal where
  | fin : ℚ → NpVal
  | inf : NpVal
  | ninf : NpVal
  | nan : NpVal
deriving DecidableEq

namespace NpVal

/-- IEEE negation (used for the jackknife sign correction `R = R * -1`). -/
def neg : NpVal → NpVal
  | .fin q => .fin (-q)
  | .inf => .ninf
  | .ninf => .inf
  | .nan => .nan

/-- IEEE subtraction. -/
def sub : NpVal → NpVal → NpVal
  | .fin a, .fin b => .fin (a - b)
  | .fin _, .inf => .ninf
  | .fin _, .ninf => .inf
  | .inf, .fin _ => .inf
  | .inf, .ninf => .inf
  | .ninf, .fin _ => .ninf
  | .ninf, .inf => .ninf
  | .inf, .inf => .nan
  | .ninf, .ninf => .nan
  | .nan, _ => .nan
  | _, .nan => .nan

/-- IEEE division (signed zero collapsed onto +0, as only `1/x` and
`(a-b)/(c-d)` with finite operands occur in the translated code). -/
def div : NpVal → NpVal → NpVal
  | .fin a, .fin b =>
      if b = 0 then (if a = 0 then .nan else if 0 < a then .inf else .ninf)
      else .fin (a / b)
  | .fin _, .inf => .fin 0
  | .fin _, .ninf => .fin 0
  | .inf, .fin b => if b < 0 then .ninf else .inf
  | .ninf, .fin b => if b < 0 then .inf else .ninf
  | .inf, .inf => .nan
  | .inf, .ninf => .nan
  | .ninf, .inf => .nan
  | .ninf, .ninf => .nan
  | .nan, _ => .nan
  | _, .nan => .nan

/-- NaN-skipping binary minimum, the reduction step of `np.nanmin`
(order: -inf < finite < +inf; NaN is ignored). -/
def min2 : NpVal → NpVal → NpVal
  | .nan, b => b
  | a, .nan => a
  | .ninf, _ => .ninf
  | _, .ninf => .ninf
  | .inf, b => b
  | a, .inf => a
  | .fin a, .fin b => .fin (min a b)

/-- NaN-skipping binary maximum, the reduction step of `np.nanmax`. -/
def max2 : NpVal → NpVal → NpVal
  | .nan, b => b
  | a, .nan => a
  | .inf, _ => .inf
  | _, .inf => .inf
  | .ninf, b => b
  | a, .ninf => a
  | .fin a, .fin b => .fin (max a b)

end NpVal

/-- `np.nanmin` over a list of values: minimum ignoring NaN
(NaN when every element is NaN). -/
def nanmin (l : List NpVal) : NpVal := l.foldr NpVal.min2 .nan

/-- `np.nanmax` over a list of values: maximum ignoring NaN. -/
def nanmax (l : List NpVal) : NpVal := l.foldr NpVal.max2 .nan

/-- The elementwise step of `R[np.isinf(R)] = 0` (derive.py line 179):
both infinities become 0, every other value is kept. -/
def zeroInfVal (v : NpVal) : NpVal :=
  if v = .inf ∨ v = .ninf then .fin 0 else v

/-- A numpy 2-d array of finite rationals (the caller's input data, or a
user-supplied literal weight matrix). `entry i j` is only meaningful for
`i < rows`, `j < cols`. -/
structure NMat where
  rows : ℕ
  cols : ℕ
  entry : ℕ → ℕ → ℚ

/-- `data.transpose()` from derive.py line 129. -/
def NMat.transpose (m : NMat) : NMat :=
  ⟨m.cols, m.rows, fun i j => m.entry j i⟩

/-- A weight matrix as built by the `weightfun_*` routines: `rows` weight
vectors of length `cols`, with possibly non-finite entries. -/
structure WMat where
  rows : ℕ
  cols : ℕ
  entry : ℕ → ℕ → NpVal

/-- The connectivity tensor in `node, node, time` order
(after `R.transpose([1, 2, 0])`, derive.py line 170). -/
structure Tensor where
  nodes : ℕ
  depth : ℕ
  entry : ℕ → ℕ → ℕ → NpVal

/-- `weightfun_jackknife` (derive.py lines 186-190):
`np.ones([T, T])` followed by `np.fill_diagonal(weights, 0)`. -/
def weightfun_jackknife (T : ℕ) : WMat :=
  ⟨T, T, fun i j => if i = j then .fin 0 else .fin 1⟩

/-- The base indicator vector of `weightfun_sliding_window`
(derive.py lines 195-196): first `k` entries 1, the rest 0. -/
def weightat0 (k : ℕ) : ℕ → NpVal :=
  fun j => if j < k then .fin 1 else .fin 0

/-- `np.roll(v, i)` read at position `j` on a length-`T` vector:
`v[(j - i) mod T]`, written with natural-number subtraction made safe. -/
def roll (v : ℕ → NpVal) (T i : ℕ) : ℕ → NpVal :=
  fun j => v ((j + T - i % T) % T)

/-- `weightfun_sliding_window` (derive.py lines 193-198), the pure part:
`T + 1 - k` rows, row `i` being the base vector cyclically rolled by `i`.
(The broadcast failure raised when `k > T` by the slice assignment on
line 196 is modelled at the call site in `derive_dispatch`.) -/
def weightfun_sliding_window (T k : ℕ) : WMat :=
  ⟨T + 1 - k, T, fun i => roll (weightat0 k) T i⟩

/-- The abscissa `x = np.arange(-(k - 1) / 2, k / 2)` of
`weightfun_tapered_sliding_window` (derive.py line 207): `k` unit-spaced
points centred on zero. -/
def taperX (k : ℕ) : List ℚ :=
  (List.range k).map (fun s => (s : ℚ) - ((k : ℚ) - 1) / 2)

/-- The tapered base vector of `weightfun_tapered_sliding_window`
(derive.py lines 212-213): the first `k` entries are the taper values,
the rest 0. -/
def taperedat0 (k : ℕ) (taper : List ℚ) : ℕ → NpVal :=
  fun j => if j < k then .fin (taper.getD j 0) else .fin 0

/-- `weightfun_tapered_sliding_window` (derive.py lines 205-215), the pure
part: like the sliding window but with the taper as base vector. -/
def weightfun_tapered_sliding_window (T k : ℕ) (taper : List ℚ) : WMat :=
  ⟨T + 1 - k, T, fun i => roll (taperedat0 k taper) T i⟩

/-- The type of a distance metric as returned by
`teneto.utils.getDistanceFunction`: vector length, two vectors, distance. -/
def DistFn : Type := ℕ → (ℕ → ℚ) → (ℕ → ℚ) → ℚ

/-- Modelled from the spec: `teneto.utils.getDistanceFunction` is not under
`src/`; the spec names `euclidean` and `hamming` as the available metrics
(§4.1).  The hamming distance (number of differing coordinates) is the
concrete rational-valued instance used for witnesses; euclidean's values are
irrational and the theorems below quantify over an arbitrary `DistFn`. -/
def hamming : DistFn :=
  fun N u v => (((Finset.range N).filter (fun i => u i ≠ v i)).card : ℚ)

/-- The inverted distance matrix of `weightfun_spatial_distance`
(derive.py lines 224-229): pairwise distances between the rows of `data`
(time points), with the diagonal set to NaN, then inverted elementwise
(`weights = 1 / weights`). -/
def wsd_inv (df : DistFn) (data : NMat) : ℕ → ℕ → NpVal :=
  fun n t =>
    NpVal.div (.fin 1)
      (if n = t then .nan else .fin (df data.cols (data.entry n) (data.entry t)))

/-- All `T × T` entries of the inverted distance matrix, the array over which
`np.nanmin` / `np.nanmax` reduce on lines 230-231. -/
def wsd_entries (df : DistFn) (data : NMat) : List NpVal :=
  (List.range data.rows).flatMap
    (fun n => (List.range data.rows).map (fun t => wsd_inv df data n t))

/-- `weightfun_spatial_distance` (derive.py lines 223-233): distances between
all pairs of rows of the (time, node) data, diagonal NaN, inverted, min-max
normalised by the nan-aware extrema, diagonal finally set to exactly 1.
The resulting matrix is `data.rows × data.rows`, i.e. T × T. -/
def weightfun_spatial_distance (df : DistFn) (data : NMat) : WMat :=
  let mn := nanmin (wsd_entries df data)
  let mx := nanmax (wsd_entries df data)
  ⟨data.rows, data.rows, fun n t =>
    if n = t then .fin 1
    else NpVal.div (NpVal.sub (wsd_inv df data n t) mn) (NpVal.sub mx mn)⟩

/-- The Python exceptions observable from `derive`.  The two explicit
`raise ValueError` statements, numpy's broadcast failure (also a
`ValueError`), dictionary `KeyError`s for absent required parameters, and
the `AttributeError` produced by evaluating an unknown `scipy.stats`
distribution name. -/
inductive PyErr where
  | valueError : String → PyErr
  | keyError : String → PyErr
  | attributeError : String → PyErr
deriving DecidableEq

/-- The value of `params['method']`: either a method-name string or a
literal numpy weight matrix. -/
inductive Method where
  | mstr : String → Method
  | mmatrix : NMat → Method

/-- `params['method'] == 'jackknife'` — in Python this comparison is `False`
whenever the method is an array rather than a string. -/
def Method.isJackknife : Method → Bool
  | .mstr s => s = "jackknife"
  | .mmatrix _ => false

/-- The value stored under the `taper` key that `weightfun_sliding_window`
and `weightfun_tapered_sliding_window` insert into the caller's params dict
through the `report['slidingwindow'] = params` aliasing (derive.py lines
199-201 and 216-218): either the literal string `'untapered/uniform'` or the
taper array. -/
inductive TaperVal where
  | uniform : TaperVal
  | arr : List ℚ → TaperVal
deriving DecidableEq

/-- The caller-supplied parameter dictionary. Absent keys are `none`.
The `taper` and `taper_window` fields model the keys that the sliding-window
weight functions add to the same dict via report aliasing. -/
structure Params where
  method : Method
  dimord : Option String := none
  report : Option String := none
  analysis_id : Option String := none
  postpro : Option String := none
  windowsize : Option ℕ := none
  distribution : Option String := none
  distribution_params : Option (List ℚ) := none
  distance : Option String := none
  taper : Option TaperVal := none
  taper_window : Option (List ℚ) := none

/-- The default-filling prologue of `derive` (derive.py lines 116-126):
missing `dimord`, `report`, `analysis_id` and `postpro` keys are inserted
into the caller's dict. -/
def fillDefaults (p : Params) : Params :=
  { p with
    dimord := some (p.dimord.getD "time,node")
    report := some (p.report.getD "yes")
    analysis_id := some (p.analysis_id.getD "")
    postpro := some (p.postpro.getD "no") }

/-- The orientation canonicalisation of `derive` (derive.py lines 128-129):
the data is transposed exactly when the resolved `dimord` equals the string
`'node,time'`; any other value (including the filled default `'time,node'`)
leaves the data untouched. -/
def canonData (p : Params) (data : NMat) : NMat :=
  if p.dimord.getD "time,node" = "node,time" then data.transpose else data

/-- The weighted-correlation reduction of `derive` (derive.py lines 164-170):
one `DescrStatsW(data, weights[i, :]).corrcoef` slice per weight row, stacked
and transposed to `(node, node, time)` order, so slice `t` of the result is
the correlation matrix computed with weight row `t`.  `corr` is the external
`statsmodels` weighted-correlation routine. -/
def wcorrTensor (corr : NMat → (ℕ → NpVal) → ℕ → ℕ → NpVal)
    (d : NMat) (w : WMat) : Tensor :=
  ⟨d.cols, w.rows, fun i j t => corr d (fun s => w.entry t s) i j⟩

/-- Elementwise tensor negation, `R = R * -1` (derive.py line 174). -/
def negT (R : Tensor) : Tensor :=
  ⟨R.nodes, R.depth, fun i j t => (R.entry i j t).neg⟩

/-- Elementwise `R[np.isinf(R)] = 0` (derive.py line 179). -/
def zeroInfT (R : Tensor) : Tensor :=
  ⟨R.nodes, R.depth, fun i j t => zeroInfVal (R.entry i j t)⟩

/-- A literal user-supplied weight matrix, promoted to `NpVal` entries. -/
def NMat.toW (m : NMat) : WMat :=
  ⟨m.rows, m.cols, fun i j => .fin (m.entry i j)⟩

/-- The keys that the sliding-window weight functions insert into the
caller's params dict through report aliasing: the new value of the `taper`
key and of the `taper_window` key (`none` = key not touched). -/
def ParamsMut : Type := Option TaperVal × Option (List ℚ)

/-- Apply the reference-mutation performed by a weight function to the
caller's params dict. -/
def applyMut (p1 : Params) (mu : ParamsMut) : Params :=
  { p1 with
    taper := mu.1.elim p1.taper some
    taper_window := mu.2.elim p1.taper_window some }

/-- The method-dispatch block of `derive` (derive.py lines 131-170).  The
dict reads `params['method']`, `params['windowsize']`,
`params['distribution']`, `params['distribution_params']` and
`params['distance']` are passed explicitly (a read of an absent key raises
`KeyError`); the writes into the dict are returned as a `ParamsMut`.
Abstract parameters stand for the external collaborators:
`corr` for `statsmodels.DescrStatsW(...).corrcoef`, `spsPdf` for the
`scipy.stats` density evaluation on line 209 (an unknown distribution name
makes it fail with an `AttributeError`), `distFn` for
`teneto.utils.getDistanceFunction` (repository code not under `src/`), and
`tdfun` for the numeric core of `temporal_derivative` (embedded concretely
over ℝ below; its irrational standard deviations do not fit `NpVal`'s
rationals).  A `k > T` window makes the slice assignment
`weightat0[0:k] = ones(k)` on line 196 (resp. 213) fail with numpy's
broadcast `ValueError` before any report key is written. -/
def derive_dispatch (corr : NMat → (ℕ → NpVal) → ℕ → ℕ → NpVal)
    (spsPdf : String → List ℚ → List ℚ → Except PyErr (List ℚ))
    (distFn : String → Except PyErr DistFn)
    (tdfun : ℕ → NMat → Tensor)
    (method : Method) (windowsize : Option ℕ) (distribution : Option String)
    (distribution_params : Option (List ℚ)) (distance : Option String)
    (d : NMat) : Except PyErr Tensor × ParamsMut :=
  match method with
  | .mstr s =>
    if s = "jackknife" then
      (.ok (wcorrTensor corr d (weightfun_jackknife d.rows)), (none, none))
    else if s = "sliding window" ∨ s = "slidingwindow" then
      match windowsize with
      | none => (.error (.keyError "windowsize"), (none, none))
      | some k =>
        if d.rows < k then
          (.error (.valueError "could not broadcast input array"), (none, none))
        else
          (.ok (wcorrTensor corr d (weightfun_sliding_window d.rows k)),
           (some .uniform, none))
    else if s = "tapered sliding window" ∨ s = "taperedslidingwindow" then
      match windowsize with
      | none => (.error (.keyError "windowsize"), (none, none))
      | some k =>
        match distribution_params with
        | none => (.error (.keyError "distribution_params"), (none, none))
        | some dp =>
          match distribution with
          | none => (.error (.keyError "distribution"), (none, none))
          | some dist =>
            match spsPdf dist dp (taperX k) with
            | .error e => (.error e, (none, none))
            | .ok taper =>
              if d.rows < k ∨ taper.length ≠ min k d.rows then
                (.error (.valueError "could not broadcast input array"),
                 (none, none))
              else
                (.ok (wcorrTensor corr d
                        (weightfun_tapered_sliding_window d.rows k taper)),
                 (some (.arr taper), some (taperX k)))
    else if s = "distance" ∨ s = "spatial distance" ∨ s = "node distance" ∨
            s = "nodedistance" ∨ s = "spatialdistance" then
      match distance with
      | none => (.error (.keyError "distance"), (none, none))
      | some dn =>
        match distFn dn with
        | .error e => (.error e, (none, none))
        | .ok df =>
          (.ok (wcorrTensor corr d (weightfun_spatial_distance df d)),
           (none, none))
    else if s = "temporal derivative" ∨ s = "temporalderivative" then
      match windowsize with
      | none => (.error (.keyError "windowsize"), (none, none))
      | some k => (.ok (tdfun k d), (none, none))
    else
      (.error (.valueError "Unrecognoized method. See derive_with_weighted_pearson documentation for predefined methods or enter own weight matrix"),
       (none, none))
  | .mmatrix m =>
    if m.rows ≠ m.cols then
      (.error (.valueError "weight matrix should be square"), (none, none))
    else if m.rows ≠ d.rows then
      (.error (.valueError "weight matrix must equal number of time points"),
       (none, none))
    else
      (.ok (wcorrTensor corr d m.toW), (none, none))

/-- `derive` (derive.py lines 14-183) with the reference-mutation of the
caller's params dict made explicit: the returned pair is (the value of the
single `return R` statement on line 183, wrapped in `Except` for the raised
exceptions; the caller's params dict as it stands after the call).
After dispatch, the tensor is negated exactly when the method string equals
`'jackknife'` (lines 173-174); if the resolved `postpro` differs from
`'no'`, the tensor goes through the post-processing pipeline (`pipe`,
standing for `teneto.derive.postpro_pipeline`, repository code not under
`src/`) and every infinite entry of the result is then zeroed (line 179).
The report written by `gen_report` (line 182) is an external file-system
effect that does not influence the returned value. -/
def derive_st (corr : NMat → (ℕ → NpVal) → ℕ → ℕ → NpVal)
    (spsPdf : String → List ℚ → List ℚ → Except PyErr (List ℚ))
    (distFn : String → Except PyErr DistFn)
    (tdfun : ℕ → NMat → Tensor)
    (pipe : String → Tensor → Tensor)
    (p : Params) (data : NMat) : Except PyErr Tensor × Params :=
  let p1 := fillDefaults p
  let d := canonData p data
  let rm := derive_dispatch corr spsPdf distFn tdfun p1.method p1.windowsize
    p1.distribution p1.distribution_params p1.distance d
  (rm.1.map (fun R0 =>
      let R1 := if p1.method.isJackknife then negT R0 else R0
      if p1.postpro.getD "no" ≠ "no" then
        zeroInfT (pipe (p1.postpro.getD "no") R1)
      else R1),
   applyMut p1 rm.2)

/-- The value `derive` hands back to its caller (the lone `return R`). -/
def derive (corr : NMat → (ℕ → NpVal) → ℕ → ℕ → NpVal)
    (spsPdf : String → List ℚ → List ℚ → Except PyErr (List ℚ))
    (distFn : String → Except PyErr DistFn)
    (tdfun : ℕ → NMat → Tensor)
    (pipe : String → Tensor → Tensor)
    (p : Params) (data : NMat) : Except PyErr Tensor :=
  (derive_st corr spsPdf distFn tdfun pipe p data).1

/-- Modelled from the spec: the `fisher` transform of
`teneto.derive.postpro_pipeline` (not under `src/`) is the elementwise
inverse hyperbolic tangent, which "fails silently into ±infinity at |r|=1"
(spec §4.4); its irrational finite values are abstracted by the `artanh`
parameter. `np.arctanh` yields NaN outside [-1, 1] and at non-finite
arguments. -/
def fisherSpec (artanh : ℚ → ℚ) : NpVal → NpVal
  | .fin q =>
      if q = 1 then .inf
      else if q = -1 then .ninf
      else if 1 < |q| then .nan
      else .fin (artanh q)
  | .inf => .nan
  | .ninf => .nan
  | .nan => .nan

/-- Modelled from the spec: a post-processing pipeline consisting of the
single `fisher` stage, applied elementwise (spec §4.4). -/
def fisherPipe (artanh : ℚ → ℚ) : String → Tensor → Tensor :=
  fun _ R => ⟨R.nodes, R.depth, fun i j t => fisherSpec artanh (R.entry i j t)⟩

/-! ### `temporal_derivative` over the reals

`temporal_derivative` (derive.py lines 236-262) divides by
`np.std(tdat, axis=0)`, a square root, so its numeric core is embedded over
ℝ rather than over the rational `NpVal` world used above. -/

/-- A connectivity tensor with real entries, as produced by
`temporal_derivative`. -/
structure RTensor where
  nodes : ℕ
  depth : ℕ
  entry : ℕ → ℕ → ℕ → ℝ

/-- First differences `tdat = data[1:, :] - data[:-1, :]`
(derive.py line 242), for (time, node)-oriented data. -/
def tdiff (data : ℕ → ℕ → ℝ) (t i : ℕ) : ℝ := data (t + 1) i - data t i

/-- `np.std` of a length-`L` series: the population standard deviation,
square root of the mean squared deviation from the mean (divisor `L`,
no sample correction — numpy's default `ddof=0`). -/
noncomputable def npstd (L : ℕ) (x : ℕ → ℝ) : ℝ :=
  Real.sqrt ((∑ t ∈ Finset.range L,
    (x t - (∑ s ∈ Finset.range L, x s) / L) ^ 2) / L)

/-- `temporal_derivative` (derive.py lines 236-262), numeric core: first
differences, z-normalisation of each node's difference series by its own
`np.std`, elementwise pair products, and a width-`k` stride-1 moving average
(`np.mean(np.lib.stride_tricks.as_strided(...), -1)`), giving depth
`(T - 1) - k + 1`. -/
noncomputable def temporal_derivative (T N k : ℕ) (data : ℕ → ℕ → ℝ) : RTensor :=
  let L := T - 1
  let td : ℕ → ℕ → ℝ := fun t i => tdiff data t i / npstd L (fun s => tdiff data s i)
  ⟨N, L - k + 1, fun i j t =>
    (∑ s ∈ Finset.range k, td (t + s) i * td (t + s) j) / k⟩

/-! ### Concrete instances used by witnesses and counterexamples -/

/-- A trivial weighted-correlation collaborator (constant 0). -/
def corr0 : NMat → (ℕ → NpVal) → ℕ → ℕ → NpVal := fun _ _ _ _ => .fin 0

/-- A weighted-correlation collaborator that reports perfect correlation. -/
def corr1 : NMat → (ℕ → NpVal) → ℕ → ℕ → NpVal := fun _ _ _ _ => .fin 1

/-- A trivial scipy-density collaborator (constant density 1). -/
def sps0 : String → List ℚ → List ℚ → Except PyErr (List ℚ) :=
  fun _ _ xs => .ok (xs.map (fun _ => 1))

/-- A distance-function resolver that always yields the hamming metric. -/
def dist0 : String → Except PyErr DistFn := fun _ => .ok hamming

/-- A trivial stand-in for the temporal-derivative numeric core. -/
def td0 : ℕ → NMat → Tensor :=
  fun k d => ⟨d.cols, d.rows - 1 - k + 1, fun _ _ _ => .fin 0⟩

/-- The identity post-processing pipeline. -/
def pipe0 : String → Tensor → Tensor := fun _ R => R

/-- A 2-time-point, 2-node data matrix. -/
def data22 : NMat :=
  ⟨2, 2, fun n i => if n = 0 then 0 else if i = 0 then 1 else 2⟩

/-- A 3-time-point, 2-node data matrix with rows (0,0), (0,1), (1,1):
its pairwise hamming distances are 1, 2, 1. -/
def data32 : NMat :=
  ⟨3, 2, fun n i => if n = 0 then 0 else if n = 1 then (if i = 0 then 0 else 1) else 1⟩

/-- A 2-time-point, 2-node data matrix with rows (0,0) and (0,1): with only
two time points the two off-diagonal distances coincide (symmetry), so the
min-max normalisation divides 0 by 0. -/
def data2c : NMat := ⟨2, 2, fun n i => if n = 1 ∧ i = 1 then 1 else 0⟩

/-- Jackknife configuration with all optional keys absent. -/
def pJK : Params := { method := Method.mstr "jackknife" }

/-- Sliding-window configuration with window size 2. -/
def pSW : Params := { method := Method.mstr "slidingwindow", windowsize := some 2 }

/-- Sliding-window configuration with a misspelt `dimord` value. -/
def pSWdim : Params :=
  { method := Method.mstr "slidingwindow", dimord := some "node,tiem",
    windowsize := some 2 }

/-- Sliding-window configuration with `dimord` absent. -/
def pSWnone : Params :=
  { method := Method.mstr "slidingwindow", dimord := none,
    windowsize := some 2 }

/-- Sliding-window configuration with `windowsize` absent. -/
def pSWnoK : Params := { method := Method.mstr "slidingwindow" }

/-- Configuration naming an unrecognised method. -/
def pUNK : Params := { method := Method.mstr "notamethod" }

/-- Jackknife configuration requesting fisher post-processing. -/
def pJKF : Params :=
  { method := Method.mstr "jackknife", postpro := some "fisher" }

/-- The method strings recognised by the dispatch chain of `derive`
(derive.py lines 131-148). -/
def recognizedMethods : List String :=
  ["jackknife", "sliding window", "slidingwindow", "tapered sliding window",
   "taperedslidingwindow", "distance", "spatial distance", "node distance",
   "nodedistance", "spatialdistance", "temporal derivative",
   "temporalderivative"]

/-! ### Properties of the nan-aware reductions -/

lemma nanmin_cons (a : NpVal) (l : List NpVal) :
    nanmin (a :: l) = NpVal.min2 a (nanmin l) := rfl

lemma nanmax_cons (a : NpVal) (l : List NpVal) :
    nanmax (a :: l) = NpVal.max2 a (nanmax l) := rfl

/-- `np.nanmin` is a lower bound on the finite elements (unless the array
contains -inf). -/
lemma nanmin_le (l : List NpVal) (q : ℚ) (h : NpVal.fin q ∈ l) :
    nanmin l = .ninf ∨ ∃ m, nanmin l = .fin m ∧ m ≤ q := by
  induction l with
  | nil => cases h
  | cons a l ih =>
    rcases List.mem_cons.mp h with ha | hmem
    · rw [nanmin_cons, ← ha]
      cases hx : nanmin l with
      | fin b => exact Or.inr ⟨min q b, rfl, min_le_left q b⟩
      | inf => exact Or.inr ⟨q, rfl, le_refl q⟩
      | ninf => exact Or.inl rfl
      | nan => exact Or.inr ⟨q, rfl, le_refl q⟩
    · rw [nanmin_cons]
      rcases ih hmem with hninf | ⟨m, hm, hle⟩
      · rw [hninf]
        cases a <;> exact Or.inl rfl
      · rw [hm]
        cases a with
        | fin c => exact Or.inr ⟨min c m, rfl, le_trans (min_le_right c m) hle⟩
        | inf => exact Or.inr ⟨m, rfl, hle⟩
        | ninf => exact Or.inl rfl
        | nan => exact Or.inr ⟨m, rfl, hle⟩

/-- `np.nanmax` is an upper bound on the finite elements (unless the array
contains +inf). -/
lemma nanmax_ge (l : List NpVal) (q : ℚ) (h : NpVal.fin q ∈ l) :
    nanmax l = .inf ∨ ∃ m, nanmax l = .fin m ∧ q ≤ m := by
  induction l with
  | nil => cases h
  | cons a l ih =>
    rcases List.mem_cons.mp h with ha | hmem
    · rw [nanmax_cons, ← ha]
      cases hx : nanmax l with
      | fin b => exact Or.inr ⟨max q b, rfl, le_max_left q b⟩
      | inf => exact Or.inl rfl
      | ninf => exact Or.inr ⟨q, rfl, le_refl q⟩
      | nan => exact Or.inr ⟨q, rfl, le_refl q⟩
    · rw [nanmax_cons]
      rcases ih hmem with hinf | ⟨m, hm, hle⟩
      · rw [hinf]
        cases a <;> exact Or.inl rfl
      · rw [hm]
        cases a with
        | fin c => exact Or.inr ⟨max c m, rfl, le_trans hle (le_max_right c m)⟩
        | inf => exact Or.inl rfl
        | ninf => exact Or.inr ⟨m, rfl, hle⟩
        | nan => exact Or.inr ⟨m, rfl, hle⟩

/-- An array containing +inf has `np.nanmax` equal to +inf. -/
lemma nanmax_of_inf_mem (l : List NpVal) (h : NpVal.inf ∈ l) :
    nanmax l = .inf := by
  induction l with
  | nil => cases h
  | cons a l ih =>
    rcases List.mem_cons.mp h with ha | hmem
    · rw [nanmax_cons, ← ha]
      cases hx : nanmax l <;> rfl
    · rw [nanmax_cons, ih hmem]
      cases a <;> rfl

/-- Every inverted distance of a pair of in-range time points occurs in the
array that `np.nanmin` / `np.nanmax` reduce over. -/
lemma wsd_inv_mem (df : DistFn) (data : NMat) {n t : ℕ}
    (hn : n < data.rows) (ht : t < data.rows) :
    wsd_inv df data n t ∈ wsd_entries df data := by
  unfold wsd_entries
  refine List.mem_flatMap.mpr ⟨n, List.mem_range.mpr hn, ?_⟩
  exact List.mem_map.mpr ⟨t, List.mem_range.mpr ht, rfl⟩

/-! ### Claim C5 -/

/-- C5 (corrected): the claim "every off-diagonal entry lies in [0, 1] for
every input data" fails on the code.  On `data2c` (two time points whose
rows are equidistant) the two off-diagonal inverted distances coincide, the
min-max normalisation computes 0/0, and numpy propagates NaN — which does
not lie in [0, 1].  (`spec-modelled:` the `hamming` metric stands in for the
absent `teneto.utils.getDistanceFunction`; the failure only needs the
symmetry `d(x,y) = d(y,x)`, shared by every metric the spec names.) -/
lemma data2c_hamming_01 :
    hamming data2c.cols (data2c.entry 0) (data2c.entry 1) = 1 := by
  have h : ((Finset.range 2).filter
      (fun i => data2c.entry 0 i ≠ data2c.entry 1 i)).card = 1 := by decide
  unfold hamming
  rw [show data2c.cols = 2 from rfl, h]
  norm_num

lemma data2c_hamming_10 :
    hamming data2c.cols (data2c.entry 1) (data2c.entry 0) = 1 := by
  have h : ((Finset.range 2).filter
      (fun i => data2c.entry 1 i ≠ data2c.entry 0 i)).card = 1 := by decide
  unfold hamming
  rw [show data2c.cols = 2 from rfl, h]
  norm_num

lemma data2c_inv_01 : wsd_inv hamming data2c 0 1 = NpVal.fin 1 := by
  simp [wsd_inv, data2c_hamming_01, NpVal.div]

lemma data2c_inv_10 : wsd_inv hamming data2c 1 0 = NpVal.fin 1 := by
  simp [wsd_inv, data2c_hamming_10, NpVal.div]

lemma data2c_entries :
    wsd_entries hamming data2c = [.nan, .fin 1, .fin 1, .nan] := by
  have h0 : wsd_inv hamming data2c 0 0 = NpVal.nan := by
    simp [wsd_inv, NpVal.div]
  have h1 : wsd_inv hamming data2c 1 1 = NpVal.nan := by
    simp [wsd_inv, NpVal.div]
  have hr : data2c.rows = 2 := rfl
  unfold wsd_entries
  rw [hr]
  rw [show List.range 2 = [0, 1] from rfl]
  simp [h0, h1, data2c_inv_01, data2c_inv_10]

theorem c5_counterexample :
    (weightfun_spatial_distance hamming data2c).entry 0 1 = NpVal.nan := by
  have hmn : nanmin (wsd_entries hamming data2c) = .fin 1 := by
    rw [data2c_entries]
    simp [nanmin, NpVal.min2]
  have hmx : nanmax (wsd_entries hamming data2c) = .fin 1 := by
    rw [data2c_entries]
    simp [nanmax, NpVal.max2]
  simp only [weightfun_spatial_distance]
  rw [if_neg (by decide : ¬(0 = 1)), data2c_inv_01, hmn, hmx]
  simp [NpVal.sub, NpVal.div]

/-- C5 (amended): the weight matrix built by the distance method has every
diagonal entry exactly 1 for every metric and every input whatsoever (the
diagonal is set after the normalisation); and — provided the nan-aware
minimum and maximum of the inverted distance array are finite and
distinct — every in-range off-diagonal entry is a finite value in the
interval [0, 1].  The diagonal conjunct carries no hypothesis: it holds
also on the degenerate inputs of the counterexample. -/
theorem c5_distance_unit_interval (df : DistFn) (data : NMat) :
    (∀ n, (weightfun_spatial_distance df data).entry n n = .fin 1) ∧
    (∀ mn mx : ℚ, nanmin (wsd_entries df data) = .fin mn →
      nanmax (wsd_entries df data) = .fin mx → mn < mx →
      ∀ n, n < data.rows → ∀ t, t < data.rows → n ≠ t →
      ∃ q, (weightfun_spatial_distance df data).entry n t = .fin q ∧
        0 ≤ q ∧ q ≤ 1) := by
  constructor
  · intro n
    simp [weightfun_spatial_distance]
  · intro mn mx hmn hmx hlt n hn t ht hne
    have hmem := wsd_inv_mem df data hn ht
    have hv : wsd_inv df data n t =
        NpVal.div (.fin 1) (.fin (df data.cols (data.entry n) (data.entry t))) := by
      simp [wsd_inv, hne]
    have hfin : ∃ w, wsd_inv df data n t = NpVal.fin w := by
      by_cases hd : df data.cols (data.entry n) (data.entry t) = 0
      · exfalso
        have hinf : wsd_inv df data n t = NpVal.inf := by
          rw [hv, hd]
          simp [NpVal.div]
        rw [hinf] at hmem
        have hcontr := nanmax_of_inf_mem _ hmem
        rw [hmx] at hcontr
        exact absurd hcontr (by simp)
      · refine ⟨1 / df data.cols (data.entry n) (data.entry t), ?_⟩
        rw [hv]
        simp [NpVal.div, hd]
    obtain ⟨w, hw⟩ := hfin
    rw [hw] at hmem
    have h1 := nanmin_le _ _ hmem
    rw [hmn] at h1
    have hmnw : mn ≤ w := by
      rcases h1 with h | ⟨m, hm, hle⟩
      · exact absurd h (by simp)
      · rw [NpVal.fin.injEq] at hm
        exact hm ▸ hle
    have h2 := nanmax_ge _ _ hmem
    rw [hmx] at h2
    have hwmx : w ≤ mx := by
      rcases h2 with h | ⟨m, hm, hle⟩
      · exact absurd h (by simp)
      · rw [NpVal.fin.injEq] at hm
        exact hm ▸ hle
    have hden : mx - mn ≠ 0 := sub_ne_zero.mpr (ne_of_gt hlt)
    have hentry : (weightfun_spatial_distance df data).entry n t =
        NpVal.div (NpVal.sub (NpVal.fin w) (NpVal.fin mn))
          (NpVal.sub (NpVal.fin mx) (NpVal.fin mn)) := by
      simp only [weightfun_spatial_distance]
      rw [if_neg hne, hw, hmn, hmx]
    refine ⟨(w - mn) / (mx - mn), ?_, ?_, ?_⟩
    · rw [hentry]
      simp [NpVal.sub, NpVal.div, hden]
    · exact div_nonneg (by linarith) (by linarith)
    · exact (div_le_one (by linarith)).mpr (by linarith)

lemma data32_d01 : hamming data32.cols (data32.entry 0) (data32.entry 1) = 1 := by
  have h : ((Finset.range 2).filter
      (fun i => data32.entry 0 i ≠ data32.entry 1 i)).card = 1 := by decide
  unfold hamming
  rw [show data32.cols = 2 from rfl, h]
  norm_num

lemma data32_d02 : hamming data32.cols (data32.entry 0) (data32.entry 2) = 2 := by
  have h : ((Finset.range 2).filter
      (fun i => data32.entry 0 i ≠ data32.entry 2 i)).card = 2 := by decide
  unfold hamming
  rw [show data32.cols = 2 from rfl, h]
  norm_num

lemma data32_d10 : hamming data32.cols (data32.entry 1) (data32.entry 0) = 1 := by
  have h : ((Finset.range 2).filter
      (fun i => data32.entry 1 i ≠ data32.entry 0 i)).card = 1 := by decide
  unfold hamming
  rw [show data32.cols = 2 from rfl, h]
  norm_num

lemma data32_d12 : hamming data32.cols (data32.entry 1) (data32.entry 2) = 1 := by
  have h : ((Finset.range 2).filter
      (fun i => data32.entry 1 i ≠ data32.entry 2 i)).card = 1 := by decide
  unfold hamming
  rw [show data32.cols = 2 from rfl, h]
  norm_num

lemma data32_d20 : hamming data32.cols (data32.entry 2) (data32.entry 0) = 2 := by
  have h : ((Finset.range 2).filter
      (fun i => data32.entry 2 i ≠ data32.entry 0 i)).card = 2 := by decide
  unfold hamming
  rw [show data32.cols = 2 from rfl, h]
  norm_num

lemma data32_d21 : hamming data32.cols (data32.entry 2) (data32.entry 1) = 1 := by
  have h : ((Finset.range 2).filter
      (fun i => data32.entry 2 i ≠ data32.entry 1 i)).card = 1 := by decide
  unfold hamming
  rw [show data32.cols = 2 from rfl, h]
  norm_num

lemma data32_entries :
    wsd_entries hamming data32 =
      [.nan, .fin 1, .fin (1/2), .fin 1, .nan, .fin 1, .fin (1/2), .fin 1, .nan] := by
  have hd : ∀ n, wsd_inv hamming data32 n n = NpVal.nan := by
    intro n
    simp [wsd_inv, NpVal.div]
  have h01 : wsd_inv hamming data32 0 1 = .fin 1 := by
    simp [wsd_inv, data32_d01, NpVal.div]
  have h02 : wsd_inv hamming data32 0 2 = .fin (1/2) := by
    simp [wsd_inv, data32_d02, NpVal.div]
  have h10 : wsd_inv hamming data32 1 0 = .fin 1 := by
    simp [wsd_inv, data32_d10, NpVal.div]
  have h12 : wsd_inv hamming data32 1 2 = .fin 1 := by
    simp [wsd_inv, data32_d12, NpVal.div]
  have h20 : wsd_inv hamming data32 2 0 = .fin (1/2) := by
    simp [wsd_inv, data32_d20, NpVal.div]
  have h21 : wsd_inv hamming data32 2 1 = .fin 1 := by
    simp [wsd_inv, data32_d21, NpVal.div]
  unfold wsd_entries
  rw [show data32.rows = 3 from rfl]
  rw [show List.range 3 = [0, 1, 2] from rfl]
  simp [hd, h01, h02, h10, h12, h20, h21]

/-- C5 witness: the diagonal conjunct of `c5_distance_unit_interval`
instantiated both on `data32` and on the degenerate `data2c` of the
counterexample (no hypothesis to discharge), and the off-diagonal clause
on `data32` with the hamming metric, whose inner hypotheses hold
concretely (nan-aware minimum 1/2, maximum 1). -/
theorem c5_witness :
    nanmin (wsd_entries hamming data32) = NpVal.fin (1/2) ∧
    nanmax (wsd_entries hamming data32) = NpVal.fin 1 ∧
    (1/2 : ℚ) < 1 ∧
    (weightfun_spatial_distance hamming data32).entry 0 0 = NpVal.fin 1 ∧
    (weightfun_spatial_distance hamming data2c).entry 1 1 = NpVal.fin 1 ∧
    (∃ q, (weightfun_spatial_distance hamming data32).entry 0 1 = NpVal.fin q ∧
      0 ≤ q ∧ q ≤ 1) := by
  have hmn : nanmin (wsd_entries hamming data32) = NpVal.fin (1/2) := by
    rw [data32_entries]
    norm_num [nanmin, NpVal.min2, min_def]
  have hmx : nanmax (wsd_entries hamming data32) = NpVal.fin 1 := by
    rw [data32_entries]
    norm_num [nanmax, NpVal.max2, max_def]
  exact ⟨hmn, hmx, by norm_num,
    (c5_distance_unit_interval hamming data32).1 0,
    (c5_distance_unit_interval hamming data2c).1 1,
    (c5_distance_unit_interval hamming data32).2 (1/2) 1 hmn hmx
      (by norm_num) 0 (by decide) 1 (by decide) (by decide)⟩

/-! ### Claim C2 -/

/-- On a length-`T` vector, position `j` of the base indicator rolled by
`i ≤ T - k` is inside the window exactly when `j` is one of the `k` cyclic
positions starting at `i`. -/
lemma roll_base_cond (T k i j : ℕ) (hk1 : 1 ≤ k) (hk : k ≤ T)
    (hi : i ≤ T - k) (hj : j < T) :
    ((j + T - i % T) % T < k ↔ ∃ s, s < k ∧ j = (i + s) % T) := by
  have him : i % T = i := Nat.mod_eq_of_lt (by omega)
  rw [him]
  constructor
  · intro h
    refine ⟨(j + T - i) % T, h, ?_⟩
    have e1 : (i + (j + T - i) % T) % T = (i + (j + T - i)) % T :=
      Nat.ModEq.add_left i (Nat.mod_modEq _ T)
    have e2 : i + (j + T - i) = j + T := by omega
    rw [e1, e2, Nat.add_mod_right, Nat.mod_eq_of_lt hj]
  · rintro ⟨s, hs, rfl⟩
    rw [Nat.mod_eq_of_lt (show i + s < T by omega)]
    have e3 : i + s + T - i = s + T := by omega
    rw [e3, Nat.add_mod_right, Nat.mod_eq_of_lt (show s < T by omega)]
    exact hs

/-- Row `i` of the sliding-window weight matrix is 1 exactly at the `k`
cyclic positions starting at index `i`. -/
lemma sliding_entry_iff (T k i j : ℕ) (hk1 : 1 ≤ k) (hk : k ≤ T)
    (hi : i ≤ T - k) (hj : j < T) :
    ((weightfun_sliding_window T k).entry i j = .fin 1 ↔
      ∃ s, s < k ∧ j = (i + s) % T) := by
  have h := roll_base_cond T k i j hk1 hk hi hj
  show (roll (weightat0 k) T i j = .fin 1 ↔ _)
  unfold roll weightat0
  rw [← h]
  split_ifs with hc
  · simp [hc]
  · simp [hc]

/-- Each valid sliding-window row contains exactly `k` ones. -/
lemma sliding_row_card (T k i : ℕ) (hk1 : 1 ≤ k) (hk : k ≤ T)
    (hi : i ≤ T - k) :
    ((Finset.range T).filter
      (fun j => (weightfun_sliding_window T k).entry i j = .fin 1)).card = k := by
  have hset : (Finset.range T).filter
      (fun j => (weightfun_sliding_window T k).entry i j = .fin 1)
      = Finset.Ico i (i + k) := by
    ext j
    simp only [Finset.mem_filter, Finset.mem_range, Finset.mem_Ico]
    constructor
    · rintro ⟨hj, he⟩
      obtain ⟨s, hs, rfl⟩ := (sliding_entry_iff T k i _ hk1 hk hi hj).mp he
      rw [Nat.mod_eq_of_lt (show i + s < T by omega)]
      omega
    · rintro ⟨h1, h2⟩
      have hj : j < T := by omega
      refine ⟨hj, (sliding_entry_iff T k i j hk1 hk hi hj).mpr
        ⟨j - i, by omega, ?_⟩⟩
      rw [Nat.mod_eq_of_lt (show i + (j - i) < T by omega)]
      omega
  rw [hset, Nat.card_Ico]
  omega

/-- C2: for every `1 ≤ k ≤ T`, `weightfun_sliding_window` produces exactly
`T - k + 1` weight rows; row `i` is the base indicator vector (first `k`
entries 1) cyclically rolled by `i`; within range, row `i` is 1 exactly at
the `k` cyclically contiguous positions starting at index `i`, and carries
exactly `k` ones. -/
theorem c2_slidingwindow_weights (T k : ℕ) (hk1 : 1 ≤ k) (hk : k ≤ T) :
    (weightfun_sliding_window T k).rows = T - k + 1 ∧
    (∀ i, (weightfun_sliding_window T k).entry i = roll (weightat0 k) T i) ∧
    (∀ i j, i < T - k + 1 → j < T →
      ((weightfun_sliding_window T k).entry i j = .fin 1 ↔
        ∃ s, s < k ∧ j = (i + s) % T)) ∧
    (∀ i, i < T - k + 1 →
      ((Finset.range T).filter
        (fun j => (weightfun_sliding_window T k).entry i j = .fin 1)).card = k) := by
  refine ⟨show T + 1 - k = T - k + 1 by omega, fun i => rfl, ?_, ?_⟩
  · intro i j hi hj
    exact sliding_entry_iff T k i j hk1 hk (by omega) hj
  · intro i hi
    exact sliding_row_card T k i hk1 hk (by omega)

/-- C2 witness: at `T = 10`, `k = 3`, the weight matrix has 8 rows, row 2
carries exactly 3 ones, and position 2 (the window start) is one of them. -/
theorem c2_witness :
    (1 ≤ 3 ∧ 3 ≤ 10) ∧
    (weightfun_sliding_window 10 3).rows = 8 ∧
    ((Finset.range 10).filter
      (fun j => (weightfun_sliding_window 10 3).entry 2 j = .fin 1)).card = 3 ∧
    ((weightfun_sliding_window 10 3).entry 2 2 = .fin 1 ↔
      ∃ s, s < 3 ∧ 2 = (2 + s) % 10) :=
  ⟨⟨by decide, by decide⟩,
   (c2_slidingwindow_weights 10 3 (by decide) (by decide)).1,
   (c2_slidingwindow_weights 10 3 (by decide) (by decide)).2.2.2 2 (by decide),
   (c2_slidingwindow_weights 10 3 (by decide) (by decide)).2.2.1 2 2
     (by decide) (by decide)⟩

/-! ### Claim C1 -/

/-- C1: for the jackknife method (with default post-processing), the weight
matrix is the T×T all-ones matrix with zero diagonal, and the tensor
returned by `derive` is exactly −1 times the weighted-Pearson tensor whose
slice `t` is computed from weight row `t` (the row that zeroes out time
point `t`): the sign inversion is applied once, after all rows are reduced.
This holds for every weighted-correlation collaborator `corr`. -/
theorem c1_jackknife_sign (corr : NMat → (ℕ → NpVal) → ℕ → ℕ → NpVal)
    (spsPdf : String → List ℚ → List ℚ → Except PyErr (List ℚ))
    (distFn : String → Except PyErr DistFn)
    (tdfun : ℕ → NMat → Tensor)
    (pipe : String → Tensor → Tensor)
    (p : Params) (data : NMat)
    (hm : p.method = Method.mstr "jackknife")
    (hpp : p.postpro = none ∨ p.postpro = some "no") :
    weightfun_jackknife (canonData p data).rows =
      ⟨(canonData p data).rows, (canonData p data).rows,
        fun i j => if i = j then NpVal.fin 0 else NpVal.fin 1⟩ ∧
    derive corr spsPdf distFn tdfun pipe p data =
      Except.ok ⟨(canonData p data).cols, (canonData p data).rows,
        fun i j t =>
          NpVal.neg (corr (canonData p data)
            (fun s => if t = s then NpVal.fin 0 else NpVal.fin 1) i j)⟩ := by
  obtain ⟨m, dio, rep, aid, pp, ws, di, dp, dn, tp, tw⟩ := p
  subst hm
  refine ⟨rfl, ?_⟩
  rcases hpp with hpp | hpp <;> subst hpp <;> rfl


/-- C1 witness: concrete jackknife run on `data22` with the trivial
correlation collaborator. -/
theorem c1_witness :
    pJK.method = Method.mstr "jackknife" ∧
    derive corr0 sps0 dist0 td0 pipe0 pJK data22 =
      Except.ok ⟨2, 2, fun i j t =>
        NpVal.neg (corr0 data22
          (fun s => if t = s then NpVal.fin 0 else NpVal.fin 1) i j)⟩ :=
  ⟨rfl, (c1_jackknife_sign corr0 sps0 dist0 td0 pipe0
      pJK data22 rfl (Or.inl rfl)).2⟩

/-! ### Claim C10 -/

/-- C10: `derive` never validates `dimord`.  Any value other than the exact
string `"node,time"` (including the absent default and misspellings) leaves
the data untransposed and makes the call behave exactly as with the default;
only the exact string `"node,time"` transposes.  No error is ever raised on
account of `dimord`. -/
theorem c10_dimord (corr : NMat → (ℕ → NpVal) → ℕ → ℕ → NpVal)
    (spsPdf : String → List ℚ → List ℚ → Except PyErr (List ℚ))
    (distFn : String → Except PyErr DistFn)
    (tdfun : ℕ → NMat → Tensor)
    (pipe : String → Tensor → Tensor)
    (p : Params) (data : NMat) (s : String)
    (hs : p.dimord = some s) (hne : s ≠ "node,time") :
    canonData p data = data ∧
    derive corr spsPdf distFn tdfun pipe p data =
      derive corr spsPdf distFn tdfun pipe { p with dimord := none } data ∧
    canonData { p with dimord := none } data = data ∧
    canonData { p with dimord := some "node,time" } data = data.transpose := by
  obtain ⟨m, dio, rep, aid, pp, ws, di, dp, dn, tp, tw⟩ := p
  subst hs
  have h1 : canonData ⟨m, some s, rep, aid, pp, ws, di, dp, dn, tp, tw⟩ data
      = data := by
    simp [canonData, hne]
  have h2 : canonData ⟨m, none, rep, aid, pp, ws, di, dp, dn, tp, tw⟩ data
      = data := by
    simp [canonData]
  have h3 : canonData ⟨m, some "node,time", rep, aid, pp, ws, di, dp, dn,
      tp, tw⟩ data = data.transpose := by
    simp [canonData]
  refine ⟨h1, ?_, h2, h3⟩
  simp only [derive, derive_st]
  rw [h1, h2]
  rfl

/-- C10 witness: the misspelling `"node,tiem"` is treated exactly like the
default `time,node` orientation on a concrete sliding-window call. -/
theorem c10_witness :
    pSWdim.dimord = some "node,tiem" ∧
    canonData pSWdim data32 = data32 ∧
    derive corr0 sps0 dist0 td0 pipe0 pSWdim data32 =
      derive corr0 sps0 dist0 td0 pipe0 pSWnone data32 :=
  ⟨rfl,
   (c10_dimord corr0 sps0 dist0 td0 pipe0 pSWdim data32 "node,tiem" rfl
     (by decide)).1,
   (c10_dimord corr0 sps0 dist0 td0 pipe0 pSWdim data32 "node,tiem" rfl
     (by decide)).2.1⟩

/-! ### Claim C7 -/

/-- C7 (code bug): `derive`'s docstring and the spec promise the pair
(Graphlet, DeriveInfo), but the function body ends in the single statement
`return R` (derive.py line 183) — the caller receives only the tensor and
the derivation report is never part of the returned value.  Evaluating the
embedded `derive` at a concrete jackknife call yields a bare `Tensor`
(whose shape and entries are checked here), not a (tensor, report) pair. -/
theorem c7_returns_tensor_only :
    (derive corr0 sps0 dist0 td0 pipe0 pJK data22).map
      (fun R => (R.nodes, R.depth, R.entry 0 1 0)) =
    Except.ok (2, 2, NpVal.fin 0) := by
  have h : NpVal.neg (NpVal.fin 0) = NpVal.fin 0 := by
    simp [NpVal.neg]
  simp only [derive, derive_st, derive_dispatch, fillDefaults, canonData,
    applyMut, Method.isJackknife, wcorrTensor, negT, corr0, pJK]
  simp [h, Except.map, data22, weightfun_jackknife]

/-! ### Claim C8 -/

/-- C8 (corrected): the claim that `derive` leaves the caller-supplied
configuration dict unchanged fails on the code.  On a plain sliding-window
call the dict afterwards carries a `taper` key (inserted through the
`report['slidingwindow'] = params` aliasing on derive.py lines 199-201) and
a filled-in `dimord` default (line 117), neither of which the caller set. -/
theorem c8_counterexample :
    (derive_st corr0 sps0 dist0 td0 pipe0 pSW data32).2.taper =
      some TaperVal.uniform ∧
    pSW.taper = none ∧
    (derive_st corr0 sps0 dist0 td0 pipe0 pSW data32).2.dimord =
      some "time,node" ∧
    pSW.dimord = none :=
  ⟨rfl, rfl, rfl, rfl⟩

/-- C8 (amended): `derive` is deterministic in (data, params) — the
embedding is a function of them — but it mutates the caller's params dict:
the four optional keys are filled with their defaults in place, the
method-relevant keys are read but preserved, a successful (untapered)
sliding-window call additionally inserts `taper = 'untapered/uniform'`
through report aliasing, while an unrecognised method string leaves the
taper keys untouched. -/
theorem c8_params_mutation (corr : NMat → (ℕ → NpVal) → ℕ → ℕ → NpVal)
    (spsPdf : String → List ℚ → List ℚ → Except PyErr (List ℚ))
    (distFn : String → Except PyErr DistFn)
    (tdfun : ℕ → NMat → Tensor)
    (pipe : String → Tensor → Tensor)
    (p : Params) (data : NMat) :
    (derive_st corr spsPdf distFn tdfun pipe p data).2.dimord =
      some (p.dimord.getD "time,node") ∧
    (derive_st corr spsPdf distFn tdfun pipe p data).2.report =
      some (p.report.getD "yes") ∧
    (derive_st corr spsPdf distFn tdfun pipe p data).2.analysis_id =
      some (p.analysis_id.getD "") ∧
    (derive_st corr spsPdf distFn tdfun pipe p data).2.postpro =
      some (p.postpro.getD "no") ∧
    (derive_st corr spsPdf distFn tdfun pipe p data).2.method = p.method ∧
    (derive_st corr spsPdf distFn tdfun pipe p data).2.windowsize =
      p.windowsize ∧
    (∀ k, (p.method = Method.mstr "slidingwindow" ∨
        p.method = Method.mstr "sliding window") →
      p.windowsize = some k → ¬ (canonData p data).rows < k →
      (derive_st corr spsPdf distFn tdfun pipe p data).2.taper =
        some TaperVal.uniform) ∧
    (∀ s, p.method = Method.mstr s → s ∉ recognizedMethods →
      (derive_st corr spsPdf distFn tdfun pipe p data).2.taper = p.taper ∧
      (derive_st corr spsPdf distFn tdfun pipe p data).2.taper_window =
        p.taper_window) := by
  obtain ⟨m, dio, rep, aid, pp, ws, di, dp, dn, tp, tw⟩ := p
  refine ⟨rfl, rfl, rfl, rfl, rfl, rfl, ?_, ?_⟩
  · intro k hm hw hlt
    subst hw
    rcases hm with hm | hm <;> subst hm <;>
      simp [derive_st, derive_dispatch, fillDefaults, applyMut, hlt]
  · intro s hm hs
    subst hm
    simp only [recognizedMethods, List.mem_cons, List.not_mem_nil, or_false] at hs
    push_neg at hs
    obtain ⟨h1, h2, h3, h4, h5, h6, h7, h8, h9, h10, h11, h12⟩ := hs
    constructor <;>
      simp [derive_st, derive_dispatch, fillDefaults, applyMut,
        h1, h2, h3, h4, h5, h6, h7, h8, h9, h10, h11, h12]

/-- C8 witness: the taper-insertion clause of `c8_params_mutation`
instantiated on the concrete sliding-window call. -/
theorem c8_witness :
    (pSW.method = Method.mstr "slidingwindow" ∨
      pSW.method = Method.mstr "sliding window") ∧
    pSW.windowsize = some 2 ∧
    ¬ (canonData pSW data32).rows < 2 ∧
    (derive_st corr0 sps0 dist0 td0 pipe0 pSW data32).2.taper =
      some TaperVal.uniform :=
  ⟨Or.inl rfl, rfl, by decide,
   (c8_params_mutation corr0 sps0 dist0 td0 pipe0 pSW data32).2.2.2.2.2.2.1 2
     (Or.inl rfl) rfl (by decide)⟩

/-! ### Claim C6 -/

/-- C6 (corrected): the claim maps every configuration fault to a
`ConfigurationError` (the code's explicit `ValueError`).  But a missing
`windowsize` for the sliding-window method is never checked: the dict read
`params['windowsize']` on derive.py line 196 raises a `KeyError` — a
different exception type — as evaluated here. -/
theorem c6_counterexample :
    derive corr0 sps0 dist0 td0 pipe0 pSWnoK data32 =
      Except.error (PyErr.keyError "windowsize") := rfl

/-- C6 (amended): the faults the code checks explicitly — an unrecognised
method string, a non-square literal weight matrix, a literal weight matrix
whose dimension differs from T — raise the `ValueError`s of derive.py lines
150, 160 and 162, and a `windowsize` larger than T for `slidingwindow`
raises numpy's broadcast `ValueError` from line 196; all are surfaced to
the caller, and an erroring scipy distribution evaluation (e.g. an unknown
distribution name, an `AttributeError`) propagates its exception unchanged.
(A missing `windowsize` instead raises `KeyError` — see the
counterexample.) -/
theorem c6_value_errors (corr : NMat → (ℕ → NpVal) → ℕ → ℕ → NpVal)
    (spsPdf : String → List ℚ → List ℚ → Except PyErr (List ℚ))
    (distFn : String → Except PyErr DistFn)
    (tdfun : ℕ → NMat → Tensor)
    (pipe : String → Tensor → Tensor)
    (p : Params) (data : NMat) :
    (∀ s, p.method = Method.mstr s → s ∉ recognizedMethods →
      derive corr spsPdf distFn tdfun pipe p data =
        Except.error (PyErr.valueError "Unrecognoized method. See derive_with_weighted_pearson documentation for predefined methods or enter own weight matrix")) ∧
    (∀ k, (p.method = Method.mstr "slidingwindow" ∨
        p.method = Method.mstr "sliding window") →
      p.windowsize = some k → (canonData p data).rows < k →
      derive corr spsPdf distFn tdfun pipe p data =
        Except.error (PyErr.valueError "could not broadcast input array")) ∧
    (∀ m, p.method = Method.mmatrix m → m.rows ≠ m.cols →
      derive corr spsPdf distFn tdfun pipe p data =
        Except.error (PyErr.valueError "weight matrix should be square")) ∧
    (∀ m, p.method = Method.mmatrix m → m.rows = m.cols →
      m.rows ≠ (canonData p data).rows →
      derive corr spsPdf distFn tdfun pipe p data =
        Except.error
          (PyErr.valueError "weight matrix must equal number of time points")) ∧
    (∀ k dparams dname e,
      (p.method = Method.mstr "taperedslidingwindow" ∨
        p.method = Method.mstr "tapered sliding window") →
      p.windowsize = some k → p.distribution_params = some dparams →
      p.distribution = some dname →
      spsPdf dname dparams (taperX k) = Except.error e →
      derive corr spsPdf distFn tdfun pipe p data = Except.error e) := by
  obtain ⟨m, dio, rep, aid, pp, ws, di, dp, dn, tp, tw⟩ := p
  refine ⟨?_, ?_, ?_, ?_, ?_⟩
  · intro s hm hs
    subst hm
    simp only [recognizedMethods, List.mem_cons, List.not_mem_nil, or_false] at hs
    push_neg at hs
    obtain ⟨h1, h2, h3, h4, h5, h6, h7, h8, h9, h10, h11, h12⟩ := hs
    simp [derive, derive_st, derive_dispatch, fillDefaults, Except.map,
      h1, h2, h3, h4, h5, h6, h7, h8, h9, h10, h11, h12]
  · intro k hm hw hlt
    subst hw
    rcases hm with hm | hm <;> subst hm <;>
      simp [derive, derive_st, derive_dispatch, fillDefaults, Except.map, hlt]
  · intro mw hm hsq
    subst hm
    simp [derive, derive_st, derive_dispatch, fillDefaults, Except.map, hsq]
  · intro mw hm heq hne
    subst hm
    rw [heq] at hne
    simp [derive, derive_st, derive_dispatch, fillDefaults, Except.map, heq,
      hne]
  · intro k dparams dname e hm hw hdp hdi hsps
    subst hw
    subst hdp
    subst hdi
    rcases hm with hm | hm <;> subst hm <;>
      simp [derive, derive_st, derive_dispatch, fillDefaults, Except.map, hsps]

/-- C6 witness: the unrecognised method string `"notamethod"` makes the
concrete call return the explicit `ValueError` of derive.py line 150. -/
theorem c6_witness :
    pUNK.method = Method.mstr "notamethod" ∧
    "notamethod" ∉ recognizedMethods ∧
    derive corr0 sps0 dist0 td0 pipe0 pUNK data32 =
      Except.error (PyErr.valueError "Unrecognoized method. See derive_with_weighted_pearson documentation for predefined methods or enter own weight matrix") :=
  ⟨rfl, by decide,
   (c6_value_errors corr0 sps0 dist0 td0 pipe0 pUNK data32).1 "notamethod"
     rfl (by decide)⟩

/-! ### Claim C9 -/

/-- Mapping a value through the infinity-zeroing step never yields an
infinity. -/
lemma zeroInfVal_not_inf (v : NpVal) :
    zeroInfVal v ≠ .inf ∧ zeroInfVal v ≠ .ninf := by
  cases v <;> simp [zeroInfVal]

/-- An `Except.map` that lands in `ok` came from an `ok`. -/
lemma except_map_ok {α β γ : Type} (f : α → β) (e : Except γ α) (b : β)
    (h : e.map f = .ok b) : ∃ a, e = .ok a ∧ b = f a := by
  cases e with
  | error err => simp [Except.map] at h
  | ok a => exact ⟨a, rfl, by simpa [Except.map] using h.symm⟩

/-- C9: whenever post-processing is requested (`postpro` resolved to
anything but `"no"`), every entry of the tensor `derive` returns is
non-infinite — the pipeline output goes through `R[np.isinf(R)] = 0` —
for every pipeline `pipe`; and the spec-modelled fisher transform sends
r = 1 to +inf and r = −1 to −inf, both of which the zeroing step maps
to 0. -/
theorem c9_no_inf_after_postpro (corr : NMat → (ℕ → NpVal) → ℕ → ℕ → NpVal)
    (spsPdf : String → List ℚ → List ℚ → Except PyErr (List ℚ))
    (distFn : String → Except PyErr DistFn)
    (tdfun : ℕ → NMat → Tensor)
    (pipe : String → Tensor → Tensor)
    (artanh : ℚ → ℚ) (p : Params) (data : NMat) (i j t : ℕ) (R : Tensor)
    (hp : p.postpro.getD "no" ≠ "no")
    (hres : derive corr spsPdf distFn tdfun pipe p data = Except.ok R) :
    (R.entry i j t ≠ NpVal.inf ∧ R.entry i j t ≠ NpVal.ninf) ∧
    fisherSpec artanh (.fin 1) = .inf ∧
    fisherSpec artanh (.fin (-1)) = .ninf ∧
    zeroInfVal (fisherSpec artanh (.fin 1)) = .fin 0 ∧
    zeroInfVal (fisherSpec artanh (.fin (-1))) = .fin 0 := by
  have hf1 : fisherSpec artanh (.fin 1) = NpVal.inf := by
    simp [fisherSpec]
  have hf2 : fisherSpec artanh (.fin (-1)) = NpVal.ninf := by
    norm_num [fisherSpec]
  refine ⟨?_, hf1, hf2, by rw [hf1]; rfl, by rw [hf2]; rfl⟩
  obtain ⟨m, dio, rep, aid, pp, ws, di, dp, dn, tp, tw⟩ := p
  simp only [derive, derive_st] at hres
  obtain ⟨R0, hR0, hR⟩ := except_map_ok _ _ _ hres
  subst hR
  simp only [fillDefaults, Option.getD_some]
  rw [if_pos hp]
  exact zeroInfVal_not_inf _

/-- The tensor a concrete fisher-post-processed jackknife call returns:
all raw correlations are 1, negated to −1, sent to −inf by the fisher
stage, then zeroed. -/
def c9tensor : Tensor :=
  zeroInfT (fisherPipe id "fisher"
    (negT (wcorrTensor corr1 data22 (weightfun_jackknife 2))))

/-- C9 witness: the concrete fisher-post-processed jackknife call succeeds
and its entries are not infinite. -/
theorem c9_witness :
    pJKF.postpro.getD "no" ≠ "no" ∧
    derive corr1 sps0 dist0 td0 (fisherPipe id) pJKF data22 =
      Except.ok c9tensor ∧
    (c9tensor.entry 0 1 0 ≠ NpVal.inf ∧ c9tensor.entry 0 1 0 ≠ NpVal.ninf) :=
  ⟨by decide, rfl,
   (c9_no_inf_after_postpro corr1 sps0 dist0 td0 (fisherPipe id) id pJKF
     data22 0 1 0 c9tensor (by decide) rfl).1⟩

/-- The spatial-distance weight matrix has one row per time point. -/
lemma wsd_rows (df : DistFn) (data : NMat) :
    (weightfun_spatial_distance df data).rows = data.rows := rfl

/-! ### Claim C4 -/

/-- C4 (corrected): the claim says the distance method computes an N×N
matrix over nodes.  On `data32`, whose shape is (T, N) = (3, 2), the code
builds a 3×3 matrix — one row per time point, `data.shape[0]` —
not a 2×2 one. -/
theorem c4_counterexample :
    (weightfun_spatial_distance hamming data32).rows = 3 ∧
    (weightfun_spatial_distance hamming data32).cols = 3 ∧
    data32.rows = 3 ∧ data32.cols = 2 ∧ (3 : ℕ) ≠ 2 :=
  ⟨rfl, rfl, rfl, rfl, by decide⟩

/-- C4 (amended): the distance method operates over time points, not nodes:
for (T, N) data it builds a T×T weight matrix whose off-diagonal (n, t)
entry is the min-max-normalised inverted distance between time-point rows
`n` and `t`, and `derive` uses row `t` of that matrix as the weighting of
correlation slice `t` — a per-slice weighting, not a single static one. -/
theorem c4_distance_time_weights (corr : NMat → (ℕ → NpVal) → ℕ → ℕ → NpVal)
    (spsPdf : String → List ℚ → List ℚ → Except PyErr (List ℚ))
    (distFn : String → Except PyErr DistFn)
    (tdfun : ℕ → NMat → Tensor)
    (pipe : String → Tensor → Tensor)
    (df : DistFn) (p : Params) (data : NMat) (dnm : String)
    (hm : p.method = Method.mstr "distance")
    (hdn : p.distance = some dnm)
    (hdf : distFn dnm = Except.ok df)
    (hpp : p.postpro = none ∨ p.postpro = some "no") :
    (weightfun_spatial_distance df (canonData p data)).rows =
      (canonData p data).rows ∧
    (weightfun_spatial_distance df (canonData p data)).cols =
      (canonData p data).rows ∧
    (∀ n t, n ≠ t →
      (weightfun_spatial_distance df (canonData p data)).entry n t =
        NpVal.div
          (NpVal.sub
            (NpVal.div (NpVal.fin 1)
              (NpVal.fin (df (canonData p data).cols
                ((canonData p data).entry n) ((canonData p data).entry t))))
            (nanmin (wsd_entries df (canonData p data))))
          (NpVal.sub (nanmax (wsd_entries df (canonData p data)))
            (nanmin (wsd_entries df (canonData p data))))) ∧
    derive corr spsPdf distFn tdfun pipe p data =
      Except.ok ⟨(canonData p data).cols, (canonData p data).rows,
        fun i j t => corr (canonData p data)
          (fun s =>
            (weightfun_spatial_distance df (canonData p data)).entry t s)
          i j⟩ := by
  obtain ⟨m, dio, rep, aid, pp, ws, di, dp, dn, tp, tw⟩ := p
  subst hm
  subst hdn
  refine ⟨rfl, rfl, ?_, ?_⟩
  · intro n t hne
    simp [weightfun_spatial_distance, wsd_inv, hne]
  · rcases hpp with h | h <;> subst h <;>
      simp [derive, derive_st, derive_dispatch, fillDefaults, hdf,
        Method.isJackknife, Except.map, wcorrTensor, wsd_rows]

/-- C4 witness: the amended theorem instantiated on `data32` with the
hamming metric resolved by the trivial distance-function resolver. -/
theorem c4_witness :
    ({ method := Method.mstr "distance", distance := some "hamming" }
        : Params).method = Method.mstr "distance" ∧
    dist0 "hamming" = Except.ok hamming ∧
    (weightfun_spatial_distance hamming
      (canonData { method := Method.mstr "distance",
                   distance := some "hamming" } data32)).rows =
      (canonData { method := Method.mstr "distance",
                   distance := some "hamming" } data32).rows :=
  ⟨rfl, rfl,
   (c4_distance_time_weights corr0 sps0 dist0 td0 pipe0 hamming
     { method := Method.mstr "distance", distance := some "hamming" }
     data32 "hamming" rfl rfl rfl (Or.inl rfl)).1⟩

/-! ### Claim C3 -/

/-- C3: `temporal_derivative` computes, for every node pair, the width-`k`
stride-1 moving average of the products of the z-normalised (population
standard deviation) first-difference series, and the returned tensor has
`N` nodes and depth `(T-1) - k + 1 = T - k`. -/
theorem c3_temporal_derivative (T N k : ℕ) (data : ℕ → ℕ → ℝ)
    (hk1 : 1 ≤ k) (hk2 : k ≤ T - 1) :
    (temporal_derivative T N k data).nodes = N ∧
    (temporal_derivative T N k data).depth = T - k ∧
    (∀ i j t, (temporal_derivative T N k data).entry i j t =
      (∑ s ∈ Finset.range k,
        ((data (t + s + 1) i - data (t + s) i) /
            npstd (T - 1) (fun u => data (u + 1) i - data u i)) *
        ((data (t + s + 1) j - data (t + s) j) /
            npstd (T - 1) (fun u => data (u + 1) j - data u j))) / k) := by
  refine ⟨rfl, ?_, fun i j t => rfl⟩
  show T - 1 - k + 1 = T - k
  omega

/-- C3 witness: at T = 100, k = 7 the returned tensor has depth 93. -/
theorem c3_witness :
    (1 ≤ 7 ∧ 7 ≤ 100 - 1) ∧
    (temporal_derivative 100 5 7 (fun _ _ => (0 : ℝ))).depth = 100 - 7 ∧
    (temporal_derivative 100 5 7 (fun _ _ => (0 : ℝ))).nodes = 5 :=
  ⟨⟨by decide, by decide⟩,
   (c3_temporal_derivative 100 5 7 (fun _ _ => (0 : ℝ)) (by decide)
     (by decide)).2.1,
   (c3_temporal_derivative 100 5 7 (fun _ _ => (0 : ℝ)) (by decide)
     (by decide)).1⟩

end Teneto
